import Mathlib

/-!
# Verification of the lazy-signal-fire submission engine

A shallow embedding of the resilient transaction-submission engine of the
`lazy-signal-fire` repository, together with proofs of the specified
properties.

The repository contains two variants of the engine; the defensive variant
(health probing before the retry loop, per-step `try`/`catch` around the
connection test, nonce fetch and submission, a `callRPC` helper with a
per-call timeout) is the one embedded here, as it is the variant that the
specification follows.  Where the simpler variant overlaps (gas-estimate
fallback, confirmation polling, the retry/round structure, returning the
hash regardless of the confirmation outcome), the two variants agree on all
behaviour modelled below.

Effectful primitives (HTTP transport, the on-disk key store, the wall
clock) are modelled by explicit environments: each network call an
execution makes is addressed by its position (probe per endpoint, attempt
per round and endpoint, receipt query per poll tick) and the environment
records that call's outcome.  Execution is sequential, so this determines
the run completely.  Wall-clock time during confirmation polling advances
by the fixed poll interval per tick (RPC latency is not modelled), so the
timeout window is `CONFIRMATION_TIMEOUT_MS / 5000` ticks.  Log output is
not modelled except where a claim depends on an action having happened, in
which case the action is recorded in an event trace.
-/

/-- Configured endpoint: URL plus display name (`{ url, name }` entries of
`RPC_ENDPOINTS`). Identity is positional/by url; the engine branches on
`name`. -/
structure Endpoint where
  url : String
  name : String
deriving DecidableEq, Repr

/-- `MAX_RETRIES` from the source. -/
def MAX_RETRIES : Nat := 3

/-- `RETRY_DELAY_MS` from the source. -/
def RETRY_DELAY_MS : Nat := 5000

/-- `CONFIRMATION_TIMEOUT_MS` from the source. -/
def CONFIRMATION_TIMEOUT_MS : Nat := 180000

/-- The fixed poll sleep inside `waitForTransaction`
(`setTimeout(resolve, 5000)`). -/
def POLL_INTERVAL_MS : Nat := 5000

/-- `DEFAULT_GAS = BigInt(100000)` from the source. -/
def DEFAULT_GAS : Int := 100000

/-- `FIRE_FUNCTION` selector constant from the source. -/
def FIRE_FUNCTION : String := "0x457094cc"

/-- The configured endpoint list `RPC_ENDPOINTS`: the dRPC endpoint from the
environment followed by the fixed Ronin public RPC. -/
def RPC_ENDPOINTS (drpcEndpoint : String) : List Endpoint :=
  [⟨drpcEndpoint, "dRPC"⟩, ⟨"https://api.roninchain.com/rpc", "Ronin RPC"⟩]

/-- The immutable configuration values the engine reads (`config` object). -/
structure Config where
  drpcEndpoint : String
  contractAddress : String
  priorityFee : Nat
  maxFee : Nat
deriving Repr

/-- JSON values as far as the engine inspects them: the `result` field of a
JSON-RPC response is a string (hex quantity), a number, a boolean or null.
`fractional` stands for a non-integral number (on which the JS `BigInt`
conversion throws). -/
inductive JsonVal where
  | str (s : String)
  | num (n : Int)
  | fractional
  | bool (b : Bool)
  | null
deriving DecidableEq, Repr

/-- Outcome of one raw JSON-RPC exchange as `callRPC` sees it: the transport
and JSON decode succeeded and the response carried a `result` (`ok`), the
fetch / timeout / body decode threw (`transportErr`), or the response
carried a JSON-RPC `error` object, which `callRPC` turns into a thrown
`Error` (`rpcErr`). -/
inductive RpcOutcome where
  | ok (v : JsonVal)
  | transportErr (msg : String)
  | rpcErr (msg : String)
deriving DecidableEq, Repr

/-- `callRPC`: returns `result.result` on success and throws otherwise
(it rethrows transport errors and throws on a JSON-RPC error payload). -/
def callRPC : RpcOutcome → Except String JsonVal
  | .ok v => .ok v
  | .transportErr m => .error m
  | .rpcErr m => .error m

/-- ASCII/latin whitespace stripped by the JS `StringToBigInt` conversion. -/
def isJsWhitespace (c : Char) : Bool :=
  c = ' ' ∨ c = '\t' ∨ c = '\n' ∨ c = '\r' ∨
  c = Char.ofNat 11 ∨ c = Char.ofNat 12 ∨ c = Char.ofNat 160 ∨
  c = Char.ofNat 0xfeff

/-- Value of one digit character in the given base (supports bases up to
16, letters case-insensitive), or `none` if the character is not a digit of
that base. -/
def digitVal (base : Nat) (c : Char) : Option Nat :=
  let v : Option Nat :=
    if '0' ≤ c ∧ c ≤ '9' then some (c.toNat - '0'.toNat)
    else if 'a' ≤ c ∧ c ≤ 'f' then some (c.toNat - 'a'.toNat + 10)
    else if 'A' ≤ c ∧ c ≤ 'F' then some (c.toNat - 'A'.toNat + 10)
    else none
  match v with
  | some n => if n < base then some n else none
  | none => none

/-- Reads a non-empty all-digit string in the given base; `none` on an empty
list or any non-digit. -/
def digitsVal (base : Nat) : List Char → Option Nat
  | [] => none
  | [c] => digitVal base c
  | c :: rest =>
    match digitVal base c, digitsVal base rest with
    | some d, some n => some (d * base ^ rest.length + n)
    | _, _ => none

/-- The JS `BigInt(string)` conversion (`StringToBigInt`): trims whitespace,
maps the empty string to 0, accepts `0x`/`0o`/`0b` prefixed unsigned
literals and optionally signed decimal literals, and fails (throws a
`SyntaxError`) on anything else. -/
def jsBigIntOfString (s : String) : Option Int :=
  let cs := (s.toList.dropWhile isJsWhitespace).reverse.dropWhile isJsWhitespace
  match cs.reverse with
  | [] => some 0
  | '0' :: 'x' :: rest => (digitsVal 16 rest).map Int.ofNat
  | '0' :: 'X' :: rest => (digitsVal 16 rest).map Int.ofNat
  | '0' :: 'o' :: rest => (digitsVal 8 rest).map Int.ofNat
  | '0' :: 'O' :: rest => (digitsVal 8 rest).map Int.ofNat
  | '0' :: 'b' :: rest => (digitsVal 2 rest).map Int.ofNat
  | '0' :: 'B' :: rest => (digitsVal 2 rest).map Int.ofNat
  | '+' :: rest => (digitsVal 10 rest).map Int.ofNat
  | '-' :: rest => (digitsVal 10 rest).map (fun n => -(n : Int))
  | other => (digitsVal 10 other).map Int.ofNat

/-- The JS `BigInt(x)` conversion on the JSON values the engine can see:
integral numbers and booleans convert, strings go through `StringToBigInt`,
`null` and fractional numbers throw. -/
def jsBigInt : JsonVal → Option Int
  | .str s => jsBigIntOfString s
  | .num n => some n
  | .fractional => none
  | .bool b => some (if b then 1 else 0)
  | .null => none

/-- `isRPCHealthy`: issues an `eth_blockNumber` call through `callRPC`;
healthy iff the call succeeds and the result is a string
(`typeof blockNumber === 'string'`); any thrown error is caught, logged and
reported as unhealthy. -/
def isRPCHealthy (probeResp : RpcOutcome) : Bool :=
  match callRPC probeResp with
  | .ok (.str _) => true
  | .ok _ => false
  | .error _ => false

/-- `estimateGas`: issues an `eth_estimateGas` call through `callRPC`,
converts the result with `BigInt`, and on ANY thrown error (transport,
JSON-RPC error payload, or a malformed result that `BigInt` rejects)
catches it and returns `DEFAULT_GAS`.  Total by construction: it never
propagates an exception to its caller. -/
def estimateGas (resp : RpcOutcome) : Int :=
  match callRPC resp with
  | .error _ => DEFAULT_GAS
  | .ok v =>
    match jsBigInt v with
    | some n => n
    | none => DEFAULT_GAS

/-- The raw receipt object as returned by `eth_getTransactionReceipt`
(hex-string fields; the engine decodes them only for log messages and
returns the raw object). -/
structure RawReceipt where
  blockNumber : String
  status : String
  gasUsed : String
deriving DecidableEq, Repr

/-- Outcome of one receipt query as `getTransactionReceipt`
sees it: the call succeeded with either `null` (receipt absent) or a
receipt object, or `callRPC` threw. -/
inductive ReceiptQueryResult where
  | ok (r : Option RawReceipt)
  | err (msg : String)
deriving DecidableEq, Repr

/-- `getTransactionReceipt`: returns the call's result on success and
catches any thrown error (transport failure, JSON-RPC error payload,
decode failure), logging it and returning `null`. -/
def getTransactionReceipt : ReceiptQueryResult → Option RawReceipt
  | .ok r => r
  | .err _ => none

/-- Number of poll iterations the `waitForTransaction` loop performs before
its wall-clock guard `Date.now() - startTime < CONFIRMATION_TIMEOUT_MS`
fails, with time advancing by the fixed 5000 ms sleep per tick. -/
def waitTicks : Nat := CONFIRMATION_TIMEOUT_MS / POLL_INTERVAL_MS

/-- The body of the `waitForTransaction` polling loop: on each tick query
the receipt; a present receipt is returned immediately (its status is only
inspected for the log message); an absent receipt — including every query
that threw, which `getTransactionReceipt` already turned into `null` —
sleeps the fixed interval and retries; when the fuel (remaining ticks
before the wall-clock timeout) runs out the loop exits with `null`. -/
def waitLoop (env : Nat → ReceiptQueryResult) : Nat → Nat → Option RawReceipt
  | _, 0 => none
  | tick, fuel + 1 =>
    match getTransactionReceipt (env tick) with
    | some r => some r
    | none => waitLoop env (tick + 1) fuel

/-- `waitForTransaction`: polls from tick 0 until a receipt is present or
the timeout window of `waitTicks` ticks elapses. -/
def waitForTransaction (env : Nat → ReceiptQueryResult) : Option RawReceipt :=
  waitLoop env 0 waitTicks

/-- `ethers.parseUnits(n.toString(), 'gwei')` for a whole-number
magnitude: gwei to base units. -/
def parseUnitsGwei (n : Nat) : Nat := n * 10 ^ 9

/-- The fee fields of a built transaction request: exactly one of the two
shapes, `{maxFeePerGas, maxPriorityFeePerGas}` or `{gasPrice}`. -/
inductive FeeFields where
  | dynamicFee (maxFeePerGas maxPriorityFeePerGas : Nat)
  | legacy (gasPrice : Nat)
deriving DecidableEq, Repr

/-- The fee-selection branch of the engine (the spec calls it
`selectFees`): the endpoint named `"dRPC"` gets an EIP-1559 request with
`maxFeePerGas = parseUnits(priorityFee) + parseUnits(maxFee)` and
`maxPriorityFeePerGas = parseUnits(priorityFee)`; every other endpoint
gets a legacy request with
`gasPrice = parseUnits(priorityFee + maxFee)`. -/
def selectFees (rpcName : String) (priorityFee maxFee : Nat) : FeeFields :=
  if rpcName = "dRPC" then
    .dynamicFee (parseUnitsGwei priorityFee + parseUnitsGwei maxFee)
      (parseUnitsGwei priorityFee)
  else
    .legacy (parseUnitsGwei (priorityFee + maxFee))

/-- The transaction request the engine builds per attempt (`txRequest`). -/
structure TxRequest where
  «to» : String
  data : String
  gasLimit : Int
  fees : FeeFields
  nonce : Nat
deriving DecidableEq, Repr

/-- `buildTxRequest`: the request-construction block of the attempt body
(both branches share `to`/`data`/`gasLimit`/`nonce`; the fee fields come
from the branch on the endpoint name). -/
def buildTxRequest (cfg : Config) (rpcName : String) (gasLimit : Int)
    (nonce : Nat) : TxRequest :=
  { «to» := cfg.contractAddress
    data := FIRE_FUNCTION
    gasLimit := gasLimit
    fees := selectFees rpcName cfg.priorityFee cfg.maxFee
    nonce := nonce }

/-- Outcomes of the effectful primitives one per-endpoint attempt invokes,
in program order.  `connTest` is `provider.getBlockNumber()` (inner
`try`/`catch`), `keyLoad` is `loadAndDecryptKey()` (no inner handler — a
throw reaches the outer per-endpoint catch), `walletInit` is the
`ethers.Wallet` constructor, `nonce` is `provider.getTransactionCount`
(inner `try`/`catch`), `gasResp` is the raw `eth_estimateGas` exchange,
`send` is `wallet.sendTransaction` (inner `try`/`catch`; `.ok` carries the
returned hash), and `receiptEnv` drives the confirmation poll. -/
structure AttemptEnv where
  connTest : Except String Unit
  keyLoad : Except String String
  walletInit : Except String Unit
  nonce : Except String Nat
  gasResp : RpcOutcome
  send : Except String String
  receiptEnv : Nat → ReceiptQueryResult

/-- The world one run of the engine interacts with: the probe outcome per
endpoint, and the primitive outcomes per (round, endpoint) attempt. -/
structure OrchestraEnv where
  probe : Endpoint → RpcOutcome
  attempt : Nat → Endpoint → AttemptEnv

/-- Observable actions recorded while the engine runs, for the properties
that are about what was invoked and when. -/
inductive Event where
  | probeCheck (name : String) (healthy : Bool)
  | attemptStart (round : Nat) (name : String)
  | connTestCall (round : Nat) (name : String)
  | keyLoadCall (round : Nat) (name : String)
  | nonceCall (round : Nat) (name : String)
  | gasCall (round : Nat) (name : String)
  | testShortCircuit (round : Nat) (name : String)
  | submitCall (round : Nat) (name : String)
  | confirmPoll (round : Nat) (name : String)
  | retrySleep (round : Nat)
deriving DecidableEq, Repr

/-- One per-endpoint attempt (the body of `for (const rpc of
endpointsToTry)`): connection test (failure caught by the inner handler →
`continue`), key decryption (a throw reaches the outer catch → `continue`),
wallet construction (ditto), nonce fetch (inner handler → `continue`), gas
estimate (total, never throws), the test-mode short-circuit returning the
sentinel hash before any request is built or sent, request construction,
submission (inner handler → `continue`), and on submission success the
confirmation poll, whose outcome is logged but never changes the returned
hash.  Returns the events of the attempt and `some hash` when the attempt
returns out of the loop. -/
def runAttempt (cfg : Config) (isTestMode : Bool) (round : Nat)
    (rpc : Endpoint) (a : AttemptEnv) : List Event × Option String :=
  let ev0 := [Event.attemptStart round rpc.name, Event.connTestCall round rpc.name]
  match a.connTest with
  | .error _ => (ev0, none)
  | .ok _ =>
    let ev1 := ev0 ++ [Event.keyLoadCall round rpc.name]
    match a.keyLoad with
    | .error _ => (ev1, none)
    | .ok _privateKey =>
      match a.walletInit with
      | .error _ => (ev1, none)
      | .ok _ =>
        let ev2 := ev1 ++ [Event.nonceCall round rpc.name]
        match a.nonce with
        | .error _ => (ev2, none)
        | .ok nonce =>
          let gasLimit := estimateGas a.gasResp
          let ev3 := ev2 ++ [Event.gasCall round rpc.name]
          if isTestMode then
            (ev3 ++ [Event.testShortCircuit round rpc.name],
             some "test-transaction-hash")
          else
            let _txRequest := buildTxRequest cfg rpc.name gasLimit nonce
            let ev4 := ev3 ++ [Event.submitCall round rpc.name]
            match a.send with
            | .error _ => (ev4, none)
            | .ok hash =>
              let _receipt := waitForTransaction a.receiptEnv
              (ev4 ++ [Event.confirmPoll round rpc.name], some hash)

/-- One round: try each candidate endpoint in list order, returning at the
first attempt that returns, otherwise finishing the round with `none`. -/
def runRound (cfg : Config) (isTestMode : Bool) (env : OrchestraEnv)
    (round : Nat) : List Endpoint → List Event × Option String
  | [] => ([], none)
  | rpc :: rest =>
    let step := runAttempt cfg isTestMode round rpc (env.attempt round rpc)
    match step.2 with
    | some h => (step.1, some h)
    | none =>
      let next := runRound cfg isTestMode env round rest
      (step.1 ++ next.1, next.2)

/-- Result of a full run: the returned transaction hash, or the thrown
exhaustion error (which carries no hash). -/
inductive SendOutcome where
  | hash (h : String)
  | exhausted (msg : String)
deriving DecidableEq, Repr

/-- The `while (attemptCount < MAX_RETRIES)` loop: run a round over the
candidate list; on a hash return it; otherwise increment the round count
and either sleep `RETRY_DELAY_MS` before the next round or, after the
final round, throw the exhaustion error.  `remaining` is
`MAX_RETRIES - round`; the `remaining = 0` case is the loop's fall-through
`throw` (reachable only if `MAX_RETRIES` were 0). -/
def runRounds (cfg : Config) (isTestMode : Bool) (env : OrchestraEnv)
    (eps : List Endpoint) : Nat → Nat → List Event × SendOutcome
  | _, 0 => ([], .exhausted "All transaction attempts failed")
  | round, remaining + 1 =>
    let r := runRound cfg isTestMode env round eps
    match r.2 with
    | some h => (r.1, .hash h)
    | none =>
      if remaining = 0 then
        (r.1,
         .exhausted
           "Failed to send transaction after trying all available RPC endpoints")
      else
        let next := runRounds cfg isTestMode env eps (round + 1) remaining
        (r.1 ++ Event.retrySleep round :: next.1, next.2)

/-- The health-probe pass: `healthyRPCs` collects, in configured order, the
endpoints whose probe succeeded. -/
def healthyRPCs (env : OrchestraEnv) (eps : List Endpoint) : List Endpoint :=
  eps.filter (fun rpc => isRPCHealthy (env.probe rpc))

/-- `endpointsToTry = healthyRPCs.length > 0 ? healthyRPCs :
RPC_ENDPOINTS`: the healthy subset when non-empty, the full configured
list otherwise. -/
def endpointsToTry (env : OrchestraEnv) (eps : List Endpoint) : List Endpoint :=
  if (healthyRPCs env eps).length > 0 then healthyRPCs env eps else eps

/-- `sendFireTransaction` over an arbitrary configured endpoint list (the
loop structure is list-generic; the repository instantiates it at
`RPC_ENDPOINTS`): probe every endpoint once, compute the candidate list,
then run the retry rounds. -/
def sendFireTransactionWith (cfg : Config) (isTestMode : Bool)
    (env : OrchestraEnv) (eps : List Endpoint) : List Event × SendOutcome :=
  let probeEvents :=
    eps.map (fun rpc => Event.probeCheck rpc.name (isRPCHealthy (env.probe rpc)))
  let rounds := runRounds cfg isTestMode env (endpointsToTry env eps) 0 MAX_RETRIES
  (probeEvents ++ rounds.1, rounds.2)

/-- `sendFireTransaction` proper, at the configured `RPC_ENDPOINTS`. -/
def sendFireTransaction (cfg : Config) (isTestMode : Bool)
    (env : OrchestraEnv) : List Event × SendOutcome :=
  sendFireTransactionWith cfg isTestMode env (RPC_ENDPOINTS cfg.drpcEndpoint)

/-- Replaces every attempt's confirmation-poll environment, leaving all
other primitive outcomes unchanged (used to state that the confirmation
outcome never influences the engine's result). -/
def setReceipts (env : OrchestraEnv)
    (re : Nat → Endpoint → Nat → ReceiptQueryResult) : OrchestraEnv :=
  { probe := env.probe
    attempt := fun r e => { env.attempt r e with receiptEnv := re r e } }

/-! ## Encrypted key storage (`crypto.ts`)

The key store encrypts the operator's private key with AES-256-GCM under a
scrypt-derived key and writes `hex(salt) ++ hex(iv) ++ hex(authTag) ++
hex(ciphertext)` to the key file; loading slices the hex string at the
fixed offsets, decodes, re-derives the key from the recovered salt and
decrypts.  The cipher primitives (`scryptSync`, `createCipheriv` /
`createDecipheriv` for `aes-256-gcm`) are Node library calls; they are
modelled as explicit function parameters, and the round-trip theorem
assumes only their documented inverse property.  The file content is
modelled as its character list. -/

/-- `SALT_LENGTH` from the source (bytes). -/
def SALT_LENGTH : Nat := 16

/-- `IV_LENGTH` from the source (bytes). -/
def IV_LENGTH : Nat := 16

/-- `TAG_LENGTH` from the source (bytes). -/
def TAG_LENGTH : Nat := 16

/-- Lower-case hex digit for a value below 16 (Node `Buffer.toString('hex')`
emits lower case). -/
def hexDigitChar (n : Nat) : Char :=
  if n < 10 then Char.ofNat ('0'.toNat + n) else Char.ofNat ('a'.toNat + (n - 10))

/-- Two-character lower-case hex encoding of one byte. -/
def byteToHex (b : Nat) : List Char := [hexDigitChar (b / 16), hexDigitChar (b % 16)]

/-- `Buffer.toString('hex')`: bytes to lower-case hex characters. -/
def bytesToHex (bs : List Nat) : List Char := (bs.map byteToHex).flatten

/-- `Buffer.from(s, 'hex')`: decodes hex pairs (either case), stopping at
the first invalid pair or odd trailing character. -/
def hexToBytes : List Char → List Nat
  | c1 :: c2 :: rest =>
    match digitVal 16 c1, digitVal 16 c2 with
    | some hi, some lo => (hi * 16 + lo) :: hexToBytes rest
    | _, _ => []
  | _ => []

/-- `encryptAndSaveKey`: derive the key from the passphrase and a fresh
salt, encrypt the private key under a fresh IV, and store
`hex(salt) ++ hex(iv) ++ hex(authTag) ++ hex(ciphertext)`.  `scrypt`
models `scryptSync(passphrase, salt, 32, ...)`; `aesEncrypt` models the
`aes-256-gcm` cipher, returning the ciphertext bytes and the auth tag; the
random salt and IV are passed in explicitly. -/
def encryptAndSaveKey (scrypt : String → List Nat → List Nat)
    (aesEncrypt : List Nat → List Nat → String → List Nat × List Nat)
    (passphrase : String) (salt iv : List Nat) (privateKey : String) :
    List Char :=
  let derivedKey := scrypt passphrase salt
  let enc := aesEncrypt derivedKey iv privateKey
  bytesToHex salt ++ bytesToHex iv ++ bytesToHex enc.2 ++ bytesToHex enc.1

/-- `loadAndDecryptKey`: slice the stored hex string at the fixed character
offsets (`SALT_LENGTH*2`, then `IV_LENGTH*2`, then `TAG_LENGTH*2`, rest),
decode each slice, re-derive the key from the recovered salt, and decrypt.
`aesDecrypt key iv authTag ciphertext` models the `aes-256-gcm` decipher
with `setAuthTag`; `none` models `decipher.final()` throwing on
authentication failure. -/
def loadAndDecryptKey (scrypt : String → List Nat → List Nat)
    (aesDecrypt : List Nat → List Nat → List Nat → List Nat → Option String)
    (passphrase : String) (data : List Char) : Option String :=
  let saltHex := data.take (SALT_LENGTH * 2)
  let ivHex := (data.drop (SALT_LENGTH * 2)).take (IV_LENGTH * 2)
  let authTagHex :=
    (data.drop ((SALT_LENGTH + IV_LENGTH) * 2)).take (TAG_LENGTH * 2)
  let encryptedDataHex := data.drop ((SALT_LENGTH + IV_LENGTH + TAG_LENGTH) * 2)
  let salt := hexToBytes saltHex
  let iv := hexToBytes ivHex
  let authTag := hexToBytes authTagHex
  let encryptedData := hexToBytes encryptedDataHex
  let derivedKey := scrypt passphrase salt
  aesDecrypt derivedKey iv authTag encryptedData

/-! ## Concrete sample worlds

Concrete configurations and environments used to evaluate the engine on
closed inputs. -/

/-- A sample configuration (the fee magnitudes are the configured
defaults). -/
def cfgW : Config :=
  { drpcEndpoint := "https://example-drpc.invalid"
    contractAddress := "0x1136dac182ab639632a38540c6f33c01e02e51a6"
    priorityFee := 20
    maxFee := 2 }

/-- The configured endpoint list for the sample configuration. -/
def epsW : List Endpoint := RPC_ENDPOINTS cfgW.drpcEndpoint

/-- A receipt-query environment in which the receipt is never present. -/
def receiptsNone : Nat → ReceiptQueryResult := fun _ => .ok none

/-- An attempt in which every primitive succeeds and submission returns
the given hash. -/
def attemptHappy (h : String) : AttemptEnv :=
  { connTest := .ok ()
    keyLoad := .ok "0xaa"
    walletInit := .ok ()
    nonce := .ok 7
    gasResp := .ok (.str "0x5208")
    send := .ok h
    receiptEnv := receiptsNone }

/-- A world in which every endpoint is healthy and every attempt succeeds. -/
def envHappy : OrchestraEnv :=
  { probe := fun _ => .ok (.str "0x10")
    attempt := fun _ _ => attemptHappy "0xfeedbeef" }

/-- An attempt in which the key store throws on decryption. -/
def attemptKeyFail : AttemptEnv :=
  { connTest := .ok ()
    keyLoad := .error "Key file not found at .key"
    walletInit := .ok ()
    nonce := .ok 0
    gasResp := .transportErr "down"
    send := .error "never reached"
    receiptEnv := receiptsNone }

/-- A world in which every endpoint is healthy but the key never
decrypts. -/
def envKeyFail : OrchestraEnv :=
  { probe := fun _ => .ok (.str "0x10")
    attempt := fun _ _ => attemptKeyFail }

/-- An attempt in which everything up to submission succeeds but
submission always throws. -/
def attemptSendFail : AttemptEnv :=
  { connTest := .ok ()
    keyLoad := .ok "0xaa"
    walletInit := .ok ()
    nonce := .ok 7
    gasResp := .rpcErr "estimate failed"
    send := .error "execution reverted"
    receiptEnv := receiptsNone }

/-- A world in which every endpoint is healthy but submission always
fails. -/
def envSendFail : OrchestraEnv :=
  { probe := fun _ => .ok (.str "0x10")
    attempt := fun _ _ => attemptSendFail }

/-- A world in which every health probe fails (healthy subset empty) and
every attempt fails at submission. -/
def envProbeDead : OrchestraEnv :=
  { probe := fun _ => .transportErr "timeout"
    attempt := fun _ _ => attemptSendFail }

/-- A sample raw receipt whose status is the reverted status `0x0`. -/
def rcptW : RawReceipt := { blockNumber := "0x10", status := "0x0", gasUsed := "0x5208" }

/-- A receipt-query environment whose first two ticks throw and whose
third tick returns a (reverted) receipt. -/
def receiptsLate : Nat → ReceiptQueryResult :=
  fun t => if t = 2 then .ok (some rcptW) else .err "network error"

/-! ## Helper lemmas about single attempts -/

/-- Every attempt begins by logging the attempt and running the connection
test for the endpoint it is about. -/
theorem attemptStart_mem_runAttempt (cfg : Config) (t : Bool) (r : Nat)
    (rpc : Endpoint) (a : AttemptEnv) :
    Event.attemptStart r rpc.name ∈ (runAttempt cfg t r rpc a).1 := by
  obtain ⟨c, k, w, n, g, s, rc⟩ := a
  cases c <;> cases k <;> cases w <;> cases n <;> cases t <;> cases s <;>
    simp [runAttempt]

/-- Attempt events only name the attempted endpoint and round. -/
theorem attemptStart_eq_of_mem_runAttempt (cfg : Config) (t : Bool)
    (r : Nat) (rpc : Endpoint) (a : AttemptEnv) (r' : Nat) (n' : String)
    (h : Event.attemptStart r' n' ∈ (runAttempt cfg t r rpc a).1) :
    r' = r ∧ n' = rpc.name := by
  obtain ⟨c, k, w, n, g, s, rc⟩ := a
  cases c <;> cases k <;> cases w <;> cases n <;> cases t <;> cases s <;>
    simp [runAttempt] at h <;> tauto

/-- A key-decryption failure after a successful connection test ends the
attempt right after the key-load call, with no hash returned: the outer
per-endpoint catch absorbs it and moves on. -/
theorem runAttempt_keyError (cfg : Config) (t : Bool) (r : Nat)
    (rpc : Endpoint) (a : AttemptEnv) (m : String)
    (hc : a.connTest = .ok ()) (hk : a.keyLoad = .error m) :
    runAttempt cfg t r rpc a =
      ([.attemptStart r rpc.name, .connTestCall r rpc.name,
        .keyLoadCall r rpc.name], none) := by
  obtain ⟨c, k, w, n, g, s, rc⟩ := a
  simp only at hc hk
  subst hc hk
  simp [runAttempt]

/-- A key-decryption failure means the attempt returns no hash, whatever
the other primitives do. -/
theorem runAttempt_keyError_snd (cfg : Config) (t : Bool) (r : Nat)
    (rpc : Endpoint) (a : AttemptEnv) (m : String)
    (hk : a.keyLoad = .error m) :
    (runAttempt cfg t r rpc a).2 = none := by
  obtain ⟨c, k, w, n, g, s, rc⟩ := a
  simp only at hk
  subst hk
  cases c <;> simp [runAttempt]

/-- Outside test mode, an attempt whose submission throws returns no hash,
whatever the earlier primitives did. -/
theorem runAttempt_sendError_snd (cfg : Config) (r : Nat)
    (rpc : Endpoint) (a : AttemptEnv) (m : String)
    (hs : a.send = .error m) :
    (runAttempt cfg false r rpc a).2 = none := by
  obtain ⟨c, k, w, n, g, s, rc⟩ := a
  simp only at hs
  subst hs
  cases c <;> cases k <;> cases w <;> cases n <;> simp [runAttempt]

/-- The happy path outside test mode: connection test, key load, wallet,
nonce all succeed and submission returns a hash; the attempt returns that
hash whatever the confirmation poll observes. -/
theorem runAttempt_happy (cfg : Config) (r : Nat) (rpc : Endpoint)
    (a : AttemptEnv) (key : String) (nn : Nat) (h : String)
    (hc : a.connTest = .ok ()) (hk : a.keyLoad = .ok key)
    (hw : a.walletInit = .ok ()) (hn : a.nonce = .ok nn)
    (hs : a.send = .ok h) :
    (runAttempt cfg false r rpc a).2 = some h := by
  obtain ⟨c, k, w, n, g, s, rc⟩ := a
  simp only at hc hk hw hn hs
  subst hc hk hw hn hs
  simp [runAttempt]

/-- The happy path in test mode: the attempt performs the connection test,
key load, nonce fetch and gas estimate, then returns the sentinel hash
without ever reaching submission. -/
theorem runAttempt_testMode (cfg : Config) (r : Nat) (rpc : Endpoint)
    (a : AttemptEnv) (key : String) (nn : Nat)
    (hc : a.connTest = .ok ()) (hk : a.keyLoad = .ok key)
    (hw : a.walletInit = .ok ()) (hn : a.nonce = .ok nn) :
    runAttempt cfg true r rpc a =
      ([.attemptStart r rpc.name, .connTestCall r rpc.name,
        .keyLoadCall r rpc.name, .nonceCall r rpc.name,
        .gasCall r rpc.name, .testShortCircuit r rpc.name],
       some "test-transaction-hash") := by
  obtain ⟨c, k, w, n, g, s, rc⟩ := a
  simp only at hc hk hw hn
  subst hc hk hw hn
  simp [runAttempt]

/-- In test mode no attempt ever invokes the submission primitive. -/
theorem submitCall_not_mem_runAttempt_testMode (cfg : Config) (r : Nat)
    (rpc : Endpoint) (a : AttemptEnv) (r' : Nat) (n' : String) :
    Event.submitCall r' n' ∉ (runAttempt cfg true r rpc a).1 := by
  obtain ⟨c, k, w, n, g, s, rc⟩ := a
  cases c <;> cases k <;> cases w <;> cases n <;> cases s <;>
    simp [runAttempt]

/-- Attempts never emit the inter-round retry sleep. -/
theorem retrySleep_not_mem_runAttempt (cfg : Config) (t : Bool) (r : Nat)
    (rpc : Endpoint) (a : AttemptEnv) (rl : Nat) :
    Event.retrySleep rl ∉ (runAttempt cfg t r rpc a).1 := by
  obtain ⟨c, k, w, n, g, s, rc⟩ := a
  cases c <;> cases k <;> cases w <;> cases n <;> cases t <;> cases s <;>
    simp [runAttempt]

/-- The attempt's result and events do not depend on the receipt-query
environment that drives the confirmation poll. -/
theorem runAttempt_setReceipts (cfg : Config) (t : Bool) (r : Nat)
    (rpc : Endpoint) (a : AttemptEnv) (re : Nat → ReceiptQueryResult) :
    runAttempt cfg t r rpc { a with receiptEnv := re } =
      runAttempt cfg t r rpc a := by
  obtain ⟨c, k, w, n, g, s, rc⟩ := a
  cases c <;> cases k <;> cases w <;> cases n <;> cases t <;> cases s <;>
    simp [runAttempt]

/-! ## Helper lemmas about rounds and the retry loop -/

/-- A round that ends with no hash attempted every candidate endpoint. -/
theorem runRound_none_attempted (cfg : Config) (t : Bool)
    (env : OrchestraEnv) (r : Nat) (l : List Endpoint)
    (h : (runRound cfg t env r l).2 = none) :
    ∀ e ∈ l, Event.attemptStart r e.name ∈ (runRound cfg t env r l).1 := by
  revert h
  induction l with
  | nil => simp
  | cons rpc rest ih =>
    intro h e he
    simp only [runRound] at h ⊢
    cases hstep : (runAttempt cfg t r rpc (env.attempt r rpc)).2 with
    | some v => simp [hstep] at h
    | none =>
      simp only [hstep] at h ⊢
      rcases List.mem_cons.mp he with he | he
      · subst he
        exact List.mem_append_left _ (attemptStart_mem_runAttempt cfg t r e _)
      · exact List.mem_append_right _ (ih h e he)

/-- If every attempt of a round fails, the round returns no hash. -/
theorem runRound_none_of_allFail (cfg : Config) (t : Bool)
    (env : OrchestraEnv) (r : Nat) (l : List Endpoint)
    (H : ∀ e ∈ l, (runAttempt cfg t r e (env.attempt r e)).2 = none) :
    (runRound cfg t env r l).2 = none := by
  induction l with
  | nil => simp [runRound]
  | cons rpc rest ih =>
    simp only [runRound]
    rw [H rpc (by simp)]
    exact ih fun e he => H e (List.mem_cons_of_mem _ he)

/-- Names appearing in a round's attempt-start events come from the
candidate list. -/
theorem attemptStart_name_mem_of_runRound (cfg : Config) (t : Bool)
    (env : OrchestraEnv) (r : Nat) (l : List Endpoint) (r' : Nat)
    (n' : String)
    (h : Event.attemptStart r' n' ∈ (runRound cfg t env r l).1) :
    n' ∈ l.map Endpoint.name := by
  induction l with
  | nil => simp [runRound] at h
  | cons rpc rest ih =>
    simp only [runRound] at h
    cases hstep : (runAttempt cfg t r rpc (env.attempt r rpc)).2 with
    | some v =>
      simp only [hstep] at h
      have := attemptStart_eq_of_mem_runAttempt cfg t r rpc _ r' n' h
      simp [this.2]
    | none =>
      simp only [hstep] at h
      rcases List.mem_append.mp h with h | h
      · have := attemptStart_eq_of_mem_runAttempt cfg t r rpc _ r' n' h
        simp [this.2]
      · exact List.mem_cons_of_mem _ (ih h)

/-- Rounds never emit the retry sleep themselves. -/
theorem retrySleep_not_mem_runRound (cfg : Config) (t : Bool)
    (env : OrchestraEnv) (r : Nat) (l : List Endpoint) (rl : Nat) :
    Event.retrySleep rl ∉ (runRound cfg t env r l).1 := by
  induction l with
  | nil => simp [runRound]
  | cons rpc rest ih =>
    simp only [runRound]
    cases hstep : (runAttempt cfg t r rpc (env.attempt r rpc)).2 with
    | some v =>
      simp only [hstep]
      exact retrySleep_not_mem_runAttempt cfg t r rpc _ rl
    | none =>
      simp only [hstep]
      intro hmem
      rcases List.mem_append.mp hmem with h | h
      · exact retrySleep_not_mem_runAttempt cfg t r rpc _ rl h
      · exact ih h

/-- In test mode, rounds never invoke the submission primitive. -/
theorem submitCall_not_mem_runRound_testMode (cfg : Config)
    (env : OrchestraEnv) (r : Nat) (l : List Endpoint) (r' : Nat)
    (n' : String) :
    Event.submitCall r' n' ∉ (runRound cfg true env r l).1 := by
  induction l with
  | nil => simp [runRound]
  | cons rpc rest ih =>
    simp only [runRound]
    cases hstep : (runAttempt cfg true r rpc (env.attempt r rpc)).2 with
    | some v =>
      simp only [hstep]
      exact submitCall_not_mem_runAttempt_testMode cfg r rpc _ r' n'
    | none =>
      simp only [hstep]
      intro hmem
      rcases List.mem_append.mp hmem with h | h
      · exact submitCall_not_mem_runAttempt_testMode cfg r rpc _ r' n' h
      · exact ih h

/-- If every round returns no hash, the retry loop ends in the exhaustion
error (for any positive number of remaining rounds). -/
theorem runRounds_exhausted_of_roundsFail (cfg : Config) (t : Bool)
    (env : OrchestraEnv) (l : List Endpoint)
    (H : ∀ r, (runRound cfg t env r l).2 = none) :
    ∀ rem r, rem ≠ 0 →
      (runRounds cfg t env l r rem).2 =
        .exhausted
          "Failed to send transaction after trying all available RPC endpoints" := by
  intro rem
  induction rem with
  | zero => intro r h; exact absurd rfl h
  | succ rem ih =>
    intro r _
    simp only [runRounds]
    rw [H r]
    by_cases hrem : rem = 0
    · simp [hrem]
    · simp only [if_neg hrem]
      exact ih (r + 1) hrem

/-- When the retry loop ends in exhaustion, the first round it ran
returned no hash and all of that round's events are in the trace. -/
theorem runRounds_exhausted_round (cfg : Config) (t : Bool)
    (env : OrchestraEnv) (l : List Endpoint) (r rem : Nat) (msg : String)
    (h : (runRounds cfg t env l r (rem + 1)).2 = .exhausted msg) :
    (runRound cfg t env r l).2 = none ∧
      ∀ ev ∈ (runRound cfg t env r l).1,
        ev ∈ (runRounds cfg t env l r (rem + 1)).1 := by
  have hn : (runRound cfg t env r l).2 = none := by
    cases hstep : (runRound cfg t env r l).2 with
    | some v => simp [runRounds, hstep] at h
    | none => rfl
  refine ⟨hn, ?_⟩
  intro ev hev
  simp only [runRounds, hn]
  by_cases hrem : rem = 0
  · simp [hrem, hev]
  · simp only [if_neg hrem]
    exact List.mem_append_left _ hev

/-- In test mode, the retry loop never invokes the submission primitive. -/
theorem submitCall_not_mem_runRounds_testMode (cfg : Config)
    (env : OrchestraEnv) (l : List Endpoint) (r' : Nat) (n' : String) :
    ∀ rem r, Event.submitCall r' n' ∉ (runRounds cfg true env l r rem).1 := by
  intro rem
  induction rem with
  | zero => intro r; simp [runRounds]
  | succ rem ih =>
    intro r
    simp only [runRounds]
    cases hstep : (runRound cfg true env r l).2 with
    | some v =>
      simp only [hstep]
      exact submitCall_not_mem_runRound_testMode cfg env r l r' n'
    | none =>
      simp only [hstep]
      by_cases hrem : rem = 0
      · simp only [hrem, if_pos rfl]
        exact submitCall_not_mem_runRound_testMode cfg env r l r' n'
      · simp only [if_neg hrem]
        intro hmem
        rcases List.mem_append.mp hmem with h | h
        · exact submitCall_not_mem_runRound_testMode cfg env r l r' n' h
        · rcases List.mem_cons.mp h with h | h
          · exact Event.noConfusion h
          · exact ih (r + 1) h

/-- Attempt-start names in the whole retry-loop trace come from the
candidate list. -/
theorem attemptStart_name_mem_of_runRounds (cfg : Config) (t : Bool)
    (env : OrchestraEnv) (l : List Endpoint) (r' : Nat) (n' : String) :
    ∀ rem r, Event.attemptStart r' n' ∈ (runRounds cfg t env l r rem).1 →
      n' ∈ l.map Endpoint.name := by
  intro rem
  induction rem with
  | zero => intro r h; simp [runRounds] at h
  | succ rem ih =>
    intro r h
    simp only [runRounds] at h
    cases hstep : (runRound cfg t env r l).2 with
    | some v =>
      simp only [hstep] at h
      exact attemptStart_name_mem_of_runRound cfg t env r l r' n' h
    | none =>
      simp only [hstep] at h
      by_cases hrem : rem = 0
      · simp only [hrem, if_pos rfl] at h
        exact attemptStart_name_mem_of_runRound cfg t env r l r' n' h
      · simp only [if_neg hrem] at h
        rcases List.mem_append.mp h with h | h
        · exact attemptStart_name_mem_of_runRound cfg t env r l r' n' h
        · rcases List.mem_cons.mp h with h | h
          · exact Event.noConfusion h
          · exact ih (r + 1) h

/-- The whole round is insensitive to the receipt-query environments. -/
theorem runRound_setReceipts (cfg : Config) (t : Bool)
    (env : OrchestraEnv) (re : Nat → Endpoint → Nat → ReceiptQueryResult)
    (r : Nat) (l : List Endpoint) :
    runRound cfg t (setReceipts env re) r l = runRound cfg t env r l := by
  induction l with
  | nil => rfl
  | cons rpc rest ih =>
    have ha : runAttempt cfg t r rpc ((setReceipts env re).attempt r rpc) =
        runAttempt cfg t r rpc (env.attempt r rpc) :=
      runAttempt_setReceipts cfg t r rpc (env.attempt r rpc) (re r rpc)
    simp only [runRound]
    rw [ha, ih]

/-- The retry loop is insensitive to the receipt-query environments. -/
theorem runRounds_setReceipts (cfg : Config) (t : Bool)
    (env : OrchestraEnv) (re : Nat → Endpoint → Nat → ReceiptQueryResult)
    (l : List Endpoint) :
    ∀ rem r, runRounds cfg t (setReceipts env re) l r rem =
      runRounds cfg t env l r rem := by
  intro rem
  induction rem with
  | zero => intro r; rfl
  | succ rem ih =>
    intro r
    simp only [runRounds]
    rw [runRound_setReceipts, ih]

/-- If the key store fails on every attempt, the run ends in the
exhaustion error — in production or test mode alike. -/
theorem keyFailAll_exhausted (cfg : Config) (t : Bool)
    (env : OrchestraEnv) (eps : List Endpoint)
    (H : ∀ r e, ∃ m, (env.attempt r e).keyLoad = .error m) :
    (sendFireTransactionWith cfg t env eps).2 =
      .exhausted
        "Failed to send transaction after trying all available RPC endpoints" := by
  have hround : ∀ r, (runRound cfg t env r (endpointsToTry env eps)).2 = none := by
    intro r
    refine runRound_none_of_allFail cfg t env r _ fun e _ => ?_
    obtain ⟨m, hm⟩ := H r e
    exact runAttempt_keyError_snd cfg t r e _ m hm
  simp only [sendFireTransactionWith]
  exact runRounds_exhausted_of_roundsFail cfg t env _ hround MAX_RETRIES 0
    (by simp [MAX_RETRIES])

/-- If submission fails on every attempt (outside test mode), every round
returns no hash. -/
theorem sendFailAll_rounds_none (cfg : Config) (env : OrchestraEnv)
    (l : List Endpoint)
    (H : ∀ r e, ∃ m, (env.attempt r e).send = .error m) :
    ∀ r, (runRound cfg false env r l).2 = none := by
  intro r
  refine runRound_none_of_allFail cfg false env r _ fun e _ => ?_
  obtain ⟨m, hm⟩ := H r e
  exact runAttempt_sendError_snd cfg r e _ m hm

/-- The full shape of the retry loop's trace when every round fails: the
three rounds' traces, separated by exactly one retry sleep per consecutive
pair and with nothing after the final round's trace. -/
theorem runRounds_trace_of_roundsFail (cfg : Config) (t : Bool)
    (env : OrchestraEnv) (l : List Endpoint)
    (H : ∀ r, (runRound cfg t env r l).2 = none) :
    runRounds cfg t env l 0 MAX_RETRIES =
      ((runRound cfg t env 0 l).1 ++
        Event.retrySleep 0 ::
          ((runRound cfg t env 1 l).1 ++
            Event.retrySleep 1 :: (runRound cfg t env 2 l).1),
       .exhausted
         "Failed to send transaction after trying all available RPC endpoints") := by
  show runRounds cfg t env l 0 (2 + 1) = _
  simp only [runRounds, H 0, H 1, H 2]
  norm_num

/-! ## Helper lemmas about the confirmation poll -/

/-- Tick-for-tick equal receipt observations give equal poll results. -/
theorem waitLoop_congr (env env2 : Nat → ReceiptQueryResult)
    (H : ∀ t, getTransactionReceipt (env t) = getTransactionReceipt (env2 t)) :
    ∀ fuel tick, waitLoop env tick fuel = waitLoop env2 tick fuel := by
  intro fuel
  induction fuel with
  | zero => intro tick; rfl
  | succ fuel ih =>
    intro tick
    simp only [waitLoop]
    rw [H tick]
    cases getTransactionReceipt (env2 tick) with
    | some r => rfl
    | none => exact ih (tick + 1)

/-- A poll that ends in timeout observed no receipt on any tick of the
window. -/
theorem waitLoop_none_all (env : Nat → ReceiptQueryResult) :
    ∀ fuel tick, waitLoop env tick fuel = none →
      ∀ i < fuel, getTransactionReceipt (env (tick + i)) = none := by
  intro fuel
  induction fuel with
  | zero => intro tick _ i hi; omega
  | succ fuel ih =>
    intro tick h i hi
    simp only [waitLoop] at h
    cases hq : getTransactionReceipt (env tick) with
    | some r => simp [hq] at h
    | none =>
      simp only [hq] at h
      cases i with
      | zero => simpa using hq
      | succ i =>
        have := ih (tick + 1) h i (by omega)
        simpa [Nat.add_assoc, Nat.add_comm 1 i] using this

/-- The poll returns the first receipt that becomes present within the
window, whatever its contents. -/
theorem waitLoop_first_present (env : Nat → ReceiptQueryResult)
    (r : RawReceipt) :
    ∀ k fuel tick, k < fuel →
      getTransactionReceipt (env (tick + k)) = some r →
      (∀ j < k, getTransactionReceipt (env (tick + j)) = none) →
      waitLoop env tick fuel = some r := by
  intro k
  induction k with
  | zero =>
    intro fuel tick hk hr _
    cases fuel with
    | zero => omega
    | succ fuel =>
      have hr' : getTransactionReceipt (env tick) = some r := by simpa using hr
      simp only [waitLoop, hr']
  | succ k ih =>
    intro fuel tick hk hr hnone
    cases fuel with
    | zero => omega
    | succ fuel =>
      simp only [waitLoop]
      have h0 : getTransactionReceipt (env tick) = none := by
        simpa using hnone 0 (by omega)
      rw [h0]
      refine ih fuel (tick + 1) (by omega) ?_ ?_
      · simpa [Nat.add_assoc, Nat.add_comm 1 k] using hr
      · intro j hj
        have := hnone (j + 1) (by omega)
        simpa [Nat.add_assoc, Nat.add_comm 1 j] using this

/-! ## Helper lemmas about the hex encoding of the key file -/

/-- Decoding a hex digit produced by the encoder recovers the value. -/
theorem digitVal_hexDigitChar (n : Nat) (h : n < 16) :
    digitVal 16 (hexDigitChar n) = some n := by
  interval_cases n <;> decide

/-- One encoded byte decodes back (given the byte is in range). -/
theorem bytesToHex_cons (b : Nat) (bs : List Nat) :
    bytesToHex (b :: bs) =
      hexDigitChar (b / 16) :: hexDigitChar (b % 16) :: bytesToHex bs := by
  simp [bytesToHex, byteToHex]

/-- The hex encoding of a byte list has two characters per byte. -/
theorem bytesToHex_length (bs : List Nat) :
    (bytesToHex bs).length = 2 * bs.length := by
  induction bs with
  | nil => rfl
  | cons b bs ih =>
    rw [bytesToHex_cons]
    simp [ih]
    omega

/-- Hex encode-then-decode is the identity on byte lists. -/
theorem hexToBytes_bytesToHex (bs : List Nat) (h : ∀ b ∈ bs, b < 256) :
    hexToBytes (bytesToHex bs) = bs := by
  induction bs with
  | nil => rfl
  | cons b bs ih =>
    have hb : b < 256 := h b (by simp)
    rw [bytesToHex_cons]
    simp only [hexToBytes]
    rw [digitVal_hexDigitChar (b / 16) (by omega),
      digitVal_hexDigitChar (b % 16) (by omega)]
    simp only
    rw [ih fun x hx => h x (List.mem_cons_of_mem _ hx)]
    congr 1
    omega

/-! ## The specified properties -/

/-- C5: fee selection is a pure, total, deterministic function of the
endpoint class and the configured magnitudes: the built request's fee
fields are exactly `selectFees` of the endpoint name and the configured
magnitudes; the dynamic-fee class (name `"dRPC"`) always yields the
`DynamicFee` variant with `maxFeePerGas` exactly `priority + max` in
gwei-derived base units and `maxPriorityFeePerGas` exactly `priority`;
every other endpoint always yields the `Legacy` variant with `gasPrice`
exactly `priority + max`; and the `DynamicFee` variant appears exactly for
the dynamic-fee class (each request carries exactly one of the two
variants, `FeeFields` being a sum type). -/
theorem selectFees_spec (cfg : Config) (name : String) (p m : Nat)
    (g : Int) (n : Nat) :
    (buildTxRequest cfg name g n).fees = selectFees name cfg.priorityFee cfg.maxFee
    ∧ selectFees "dRPC" p m =
        .dynamicFee (parseUnitsGwei (p + m)) (parseUnitsGwei p)
    ∧ (name ≠ "dRPC" →
        selectFees name p m = .legacy (parseUnitsGwei (p + m)))
    ∧ ((∃ a b, selectFees name p m = .dynamicFee a b) ↔ name = "dRPC") := by
  refine ⟨rfl, ?_, ?_, ?_⟩
  · simp [selectFees, parseUnitsGwei, Nat.add_mul]
  · intro h
    simp [selectFees, h]
  · constructor
    · rintro ⟨a, b, hab⟩
      by_contra h
      simp [selectFees, h] at hab
    · intro h
      exact ⟨parseUnitsGwei p + parseUnitsGwei m, parseUnitsGwei p,
        by simp [selectFees, h]⟩

/-- Witness for C5 at the legacy endpoint class and the configured
magnitudes. -/
theorem selectFees_spec_witness :
    selectFees "Ronin RPC" 20 2 = .legacy (parseUnitsGwei (20 + 2)) :=
  (selectFees_spec cfgW "Ronin RPC" 20 2 0 0).2.2.1 (by decide)

/-- C6: for every failure mode of the gas estimate — transport failure,
JSON-RPC error payload, or a result the `BigInt` conversion rejects —
`estimateGas` returns the fixed default constant 100000 (it is a total
function, so it never propagates an exception); on a well-formed numeric
result it returns that estimate. -/
theorem estimateGas_default_on_failure (m : String) (v : JsonVal) (n : Int) :
    estimateGas (.transportErr m) = DEFAULT_GAS
    ∧ estimateGas (.rpcErr m) = DEFAULT_GAS
    ∧ (jsBigInt v = none → estimateGas (.ok v) = DEFAULT_GAS)
    ∧ (jsBigInt v = some n → estimateGas (.ok v) = n)
    ∧ DEFAULT_GAS = 100000 := by
  refine ⟨rfl, rfl, ?_, ?_, rfl⟩
  · intro h
    simp [estimateGas, callRPC, h]
  · intro h
    simp [estimateGas, callRPC, h]

/-- Witness for C6: a malformed (null) result falls back to the default
and a well-formed hex quantity is returned as the estimate. -/
theorem estimateGas_default_on_failure_witness :
    estimateGas (.ok .null) = DEFAULT_GAS
    ∧ estimateGas (.ok (.str "0x5208")) = 21000 :=
  ⟨(estimateGas_default_on_failure "x" .null 0).2.2.1 rfl,
   (estimateGas_default_on_failure "x" (.str "0x5208") 21000).2.2.2.1 (by decide)⟩

/-- C8: during confirmation polling a raw receipt-query failure on one
tick is treated exactly as a tick on which the receipt is absent (the
poller sleeps the fixed interval and retries): a thrown query and a null
result decode identically, and tick-for-tick equal observations give
identical poll results; the poller times out only after observing no
receipt on every tick of the window (it never terminates early without a
receipt); and the first present receipt ends the poll immediately with
that receipt, regardless of its status. -/
theorem waitForTransaction_poller_spec (env env2 : Nat → ReceiptQueryResult)
    (m : String) (k : Nat) (r : RawReceipt) :
    getTransactionReceipt (.err m) = getTransactionReceipt (.ok none)
    ∧ ((∀ t, getTransactionReceipt (env t) = getTransactionReceipt (env2 t)) →
        waitForTransaction env = waitForTransaction env2)
    ∧ (waitForTransaction env = none →
        ∀ t < waitTicks, getTransactionReceipt (env t) = none)
    ∧ (k < waitTicks → getTransactionReceipt (env k) = some r →
        (∀ j < k, getTransactionReceipt (env j) = none) →
        waitForTransaction env = some r) := by
  refine ⟨rfl, ?_, ?_, ?_⟩
  · intro H
    exact waitLoop_congr env env2 H waitTicks 0
  · intro h t ht
    have := waitLoop_none_all env waitTicks 0 h t ht
    simpa using this
  · intro hk hr hnone
    refine waitLoop_first_present env r k waitTicks 0 hk ?_ ?_
    · simpa using hr
    · intro j hj
      simpa using hnone j hj

/-- Witness for C8: two failing ticks followed by a present (reverted)
receipt end the poll with that receipt. -/
theorem waitForTransaction_poller_spec_witness :
    waitForTransaction receiptsLate = some rcptW :=
  (waitForTransaction_poller_spec receiptsLate receiptsLate "x" 2 rcptW).2.2.2
    (by decide) (by decide) (by decide)

/-- C1: if the health probe classifies zero endpoints as healthy, the
candidate list is the full configured list in configured order, and the
run can only end in the exhaustion error after every configured endpoint
was attempted (in round 1 already); if at least one endpoint is healthy,
the candidate list is exactly the healthy subset in original (filter)
order, and every attempt in the run is against an endpoint of that
subset. -/
theorem sendFire_probe_fallback (cfg : Config) (t : Bool)
    (env : OrchestraEnv) (eps : List Endpoint) :
    (healthyRPCs env eps = [] →
      endpointsToTry env eps = eps ∧
      ∀ msg, (sendFireTransactionWith cfg t env eps).2 = .exhausted msg →
        ∀ e ∈ eps, Event.attemptStart 0 e.name ∈
          (sendFireTransactionWith cfg t env eps).1)
    ∧ (healthyRPCs env eps ≠ [] →
        endpointsToTry env eps =
          eps.filter (fun rpc => isRPCHealthy (env.probe rpc)) ∧
        ∀ r n, Event.attemptStart r n ∈ (sendFireTransactionWith cfg t env eps).1 →
          n ∈ (healthyRPCs env eps).map Endpoint.name) := by
  constructor
  · intro hempty
    have htry : endpointsToTry env eps = eps := by
      simp [endpointsToTry, hempty]
    refine ⟨htry, ?_⟩
    intro msg hmsg e he
    have hsnd : (runRounds cfg t env (endpointsToTry env eps) 0 (2 + 1)).2 =
        .exhausted msg := hmsg
    have hround := runRounds_exhausted_round cfg t env (endpointsToTry env eps)
      0 2 msg hsnd
    have hstart := runRound_none_attempted cfg t env 0 (endpointsToTry env eps)
      hround.1 e (by rw [htry]; exact he)
    have hin : Event.attemptStart 0 e.name ∈
        (runRounds cfg t env (endpointsToTry env eps) 0 (2 + 1)).1 :=
      hround.2 _ hstart
    exact List.mem_append_right _ hin
  · intro hne
    have hlen : (healthyRPCs env eps).length > 0 := List.length_pos.mpr hne
    have htry : endpointsToTry env eps = healthyRPCs env eps := by
      simp [endpointsToTry, if_pos hlen]
    refine ⟨htry, ?_⟩
    intro r n hmem
    rcases List.mem_append.mp hmem with h | h
    · exfalso
      rcases List.mem_map.mp h with ⟨rpc, _, hev⟩
      exact Event.noConfusion hev
    · have := attemptStart_name_mem_of_runRounds cfg t env
        (endpointsToTry env eps) r n MAX_RETRIES 0 h
      rwa [htry] at this

/-- Witness for C1: a world whose probes all fail falls back to the full
configured list and, with every submission failing, attempts the dRPC
endpoint (and, symmetrically, all others) before exhausting. -/
theorem sendFire_probe_fallback_witness :
    endpointsToTry envProbeDead epsW = epsW ∧
    Event.attemptStart 0 "dRPC" ∈
      (sendFireTransactionWith cfgW false envProbeDead epsW).1 := by
  have h := (sendFire_probe_fallback cfgW false envProbeDead epsW).1 (by decide)
  exact ⟨h.1, h.2
    "Failed to send transaction after trying all available RPC endpoints"
    (by decide) ⟨cfgW.drpcEndpoint, "dRPC"⟩ (by decide)⟩

/-- C2: whenever the submission primitive returns a hash (after the
connection test, key load, wallet construction and nonce fetch all
succeeded), the attempt — and hence `sendFireTransaction` — returns that
hash whatever the confirmation poll observes; globally, replacing every
attempt's receipt-query environment (hence any Confirmed(Success),
Confirmed(Reverted) or TimedOut confirmation outcome) changes nothing
about the run's trace or result. -/
theorem sendFire_hash_regardless_of_confirmation (cfg : Config) (t : Bool)
    (env : OrchestraEnv) (re : Nat → Endpoint → Nat → ReceiptQueryResult)
    (eps : List Endpoint) (r : Nat) (e : Endpoint) (a : AttemptEnv)
    (key h : String) (nn : Nat) :
    (a.connTest = .ok () → a.keyLoad = .ok key → a.walletInit = .ok () →
      a.nonce = .ok nn → a.send = .ok h →
      (runAttempt cfg false r e a).2 = some h)
    ∧ sendFireTransactionWith cfg t (setReceipts env re) eps =
        sendFireTransactionWith cfg t env eps := by
  constructor
  · exact runAttempt_happy cfg r e a key nn h
  · have h2 : endpointsToTry (setReceipts env re) eps = endpointsToTry env eps :=
      rfl
    calc sendFireTransactionWith cfg t (setReceipts env re) eps
        = ((eps.map fun rpc =>
              Event.probeCheck rpc.name (isRPCHealthy (env.probe rpc))) ++
            (runRounds cfg t (setReceipts env re) (endpointsToTry env eps) 0
              MAX_RETRIES).1,
           (runRounds cfg t (setReceipts env re) (endpointsToTry env eps) 0
              MAX_RETRIES).2) := rfl
      _ = sendFireTransactionWith cfg t env eps := by
          rw [runRounds_setReceipts cfg t env re (endpointsToTry env eps)
            MAX_RETRIES 0]
          rfl

/-- Witness for C2: the happy-path attempt returns the submitted hash even
though the receipt is never found, and swapping every receipt query for a
thrown one leaves the whole run unchanged. -/
theorem sendFire_hash_regardless_of_confirmation_witness :
    (runAttempt cfgW false 0 ⟨cfgW.drpcEndpoint, "dRPC"⟩
        (attemptHappy "0xfeedbeef")).2 = some "0xfeedbeef"
    ∧ sendFireTransactionWith cfgW false
        (setReceipts envHappy fun _ _ _ => .err "boom") epsW =
      sendFireTransactionWith cfgW false envHappy epsW :=
  ⟨(sendFire_hash_regardless_of_confirmation cfgW false envHappy
      (fun _ _ _ => .err "boom") epsW 0 ⟨cfgW.drpcEndpoint, "dRPC"⟩
      (attemptHappy "0xfeedbeef") "0xaa" "0xfeedbeef" 7).1 rfl rfl rfl rfl rfl,
   (sendFire_hash_regardless_of_confirmation cfgW false envHappy
      (fun _ _ _ => .err "boom") epsW 0 ⟨cfgW.drpcEndpoint, "dRPC"⟩
      (attemptHappy "0xfeedbeef") "0xaa" "0xfeedbeef" 7).2⟩

/-- C4: if submission fails on every endpoint in every round, the run ends
in the exhaustion error with no transaction hash, and the trace is exactly
the probe events followed by the three rounds' traces with one retry sleep
between consecutive rounds and none after the final round (rounds and
probe events never contain a retry sleep themselves). -/
theorem retry_exhaustion_and_delay (cfg : Config) (env : OrchestraEnv)
    (eps : List Endpoint)
    (H : ∀ r e, ∃ m, (env.attempt r e).send = .error m) :
    (sendFireTransactionWith cfg false env eps).2 =
      .exhausted
        "Failed to send transaction after trying all available RPC endpoints"
    ∧ (sendFireTransactionWith cfg false env eps).1 =
        (eps.map fun rpc =>
            Event.probeCheck rpc.name (isRPCHealthy (env.probe rpc))) ++
          ((runRound cfg false env 0 (endpointsToTry env eps)).1 ++
            Event.retrySleep 0 ::
              ((runRound cfg false env 1 (endpointsToTry env eps)).1 ++
                Event.retrySleep 1 ::
                  (runRound cfg false env 2 (endpointsToTry env eps)).1))
    ∧ (∀ r rl, Event.retrySleep rl ∉
        (runRound cfg false env r (endpointsToTry env eps)).1)
    ∧ (∀ rl, Event.retrySleep rl ∉ eps.map fun rpc =>
        Event.probeCheck rpc.name (isRPCHealthy (env.probe rpc))) := by
  have hr := sendFailAll_rounds_none cfg env (endpointsToTry env eps) H
  have htr := runRounds_trace_of_roundsFail cfg false env (endpointsToTry env eps) hr
  refine ⟨?_, ?_, ?_, ?_⟩
  · show (runRounds cfg false env (endpointsToTry env eps) 0 MAX_RETRIES).2 = _
    rw [htr]
  · show (eps.map fun rpc =>
        Event.probeCheck rpc.name (isRPCHealthy (env.probe rpc))) ++
          (runRounds cfg false env (endpointsToTry env eps) 0 MAX_RETRIES).1 = _
    rw [htr]
  · intro r rl
    exact retrySleep_not_mem_runRound cfg false env r (endpointsToTry env eps) rl
  · intro rl
    simp

/-- Witness for C4: with every submission reverting, the sample run
exhausts. -/
theorem retry_exhaustion_and_delay_witness :
    (sendFireTransactionWith cfgW false envSendFail epsW).2 =
      .exhausted
        "Failed to send transaction after trying all available RPC endpoints" :=
  (retry_exhaustion_and_delay cfgW envSendFail epsW
    fun _ _ => ⟨"execution reverted", rfl⟩).1

/-- C7: with the dry-run/test flag set, the submission primitive is never
invoked anywhere in the run (no signing/broadcast side effect), and as
soon as one candidate endpoint's pre-flight steps succeed the run returns
the fixed sentinel hash. -/
theorem testMode_sentinel_no_submit (cfg : Config) (env : OrchestraEnv)
    (eps rest : List Endpoint) (e : Endpoint) (key : String) (nn : Nat)
    (r' : Nat) (n' : String) :
    Event.submitCall r' n' ∉ (sendFireTransactionWith cfg true env eps).1
    ∧ (endpointsToTry env eps = e :: rest →
        (env.attempt 0 e).connTest = .ok () →
        (env.attempt 0 e).keyLoad = .ok key →
        (env.attempt 0 e).walletInit = .ok () →
        (env.attempt 0 e).nonce = .ok nn →
        (sendFireTransactionWith cfg true env eps).2 =
          .hash "test-transaction-hash") := by
  constructor
  · intro hmem
    have hmem' : Event.submitCall r' n' ∈
        (eps.map fun rpc =>
          Event.probeCheck rpc.name (isRPCHealthy (env.probe rpc))) ++
          (runRounds cfg true env (endpointsToTry env eps) 0 MAX_RETRIES).1 :=
      hmem
    rcases List.mem_append.mp hmem' with h | h
    · rcases List.mem_map.mp h with ⟨rpc, _, hev⟩
      exact Event.noConfusion hev
    · exact submitCall_not_mem_runRounds_testMode cfg env
        (endpointsToTry env eps) r' n' MAX_RETRIES 0 h
  · intro htry hc hk hw hn
    have hatt := runAttempt_testMode cfg 0 e (env.attempt 0 e) key nn hc hk hw hn
    show (runRounds cfg true env (endpointsToTry env eps) 0 MAX_RETRIES).2 = _
    rw [htry]
    show (runRounds cfg true env (e :: rest) 0 (2 + 1)).2 = _
    simp [runRounds, runRound, hatt]

/-- Witness for C7: the sample test-mode run returns the sentinel and
never submits. -/
theorem testMode_sentinel_no_submit_witness :
    Event.submitCall 0 "dRPC" ∉ (sendFireTransactionWith cfgW true envHappy epsW).1
    ∧ (sendFireTransactionWith cfgW true envHappy epsW).2 =
        .hash "test-transaction-hash" :=
  ⟨(testMode_sentinel_no_submit cfgW envHappy epsW
      [⟨"https://api.roninchain.com/rpc", "Ronin RPC"⟩]
      ⟨cfgW.drpcEndpoint, "dRPC"⟩ "0xaa" 7 0 "dRPC").1,
   (testMode_sentinel_no_submit cfgW envHappy epsW
      [⟨"https://api.roninchain.com/rpc", "Ronin RPC"⟩]
      ⟨cfgW.drpcEndpoint, "dRPC"⟩ "0xaa" 7 0 "dRPC").2
      (by decide) rfl rfl rfl rfl⟩

/-- C9: in dry-run/test mode an attempt still runs the connection test and
calls `loadAndDecryptKey` (then the nonce fetch and the gas estimate)
before returning the sentinel; if key decryption throws, the test-mode
attempt does not return the sentinel but falls through the absorbing catch
to the next endpoint; and a run whose key never decrypts ends in the
exhaustion error even in test mode. -/
theorem testMode_key_preflight (cfg : Config) (env : OrchestraEnv)
    (eps : List Endpoint) (r : Nat) (e : Endpoint) (a : AttemptEnv)
    (key m : String) (nn : Nat) :
    (a.connTest = .ok () → a.keyLoad = .ok key → a.walletInit = .ok () →
      a.nonce = .ok nn →
      runAttempt cfg true r e a =
        ([.attemptStart r e.name, .connTestCall r e.name, .keyLoadCall r e.name,
          .nonceCall r e.name, .gasCall r e.name, .testShortCircuit r e.name],
         some "test-transaction-hash"))
    ∧ (a.connTest = .ok () → a.keyLoad = .error m →
        (runAttempt cfg true r e a).2 = none)
    ∧ ((∀ r' e', ∃ m', (env.attempt r' e').keyLoad = .error m') →
        (sendFireTransactionWith cfg true env eps).2 =
          .exhausted
            "Failed to send transaction after trying all available RPC endpoints") := by
  refine ⟨runAttempt_testMode cfg r e a key nn, ?_,
    keyFailAll_exhausted cfg true env eps⟩
  intro _ hk
  exact runAttempt_keyError_snd cfg true r e a m hk

/-- Witness for C9: the key is loaded before the sentinel on the happy
test-mode attempt; a key failure makes the test-mode attempt return
nothing; and the all-key-failures test-mode run exhausts. -/
theorem testMode_key_preflight_witness :
    runAttempt cfgW true 0 ⟨cfgW.drpcEndpoint, "dRPC"⟩ (attemptHappy "0xfeedbeef") =
      ([.attemptStart 0 "dRPC", .connTestCall 0 "dRPC", .keyLoadCall 0 "dRPC",
        .nonceCall 0 "dRPC", .gasCall 0 "dRPC", .testShortCircuit 0 "dRPC"],
       some "test-transaction-hash")
    ∧ (runAttempt cfgW true 0 ⟨cfgW.drpcEndpoint, "dRPC"⟩ attemptKeyFail).2 = none
    ∧ (sendFireTransactionWith cfgW true envKeyFail epsW).2 =
        .exhausted
          "Failed to send transaction after trying all available RPC endpoints" :=
  ⟨(testMode_key_preflight cfgW envKeyFail epsW 0 ⟨cfgW.drpcEndpoint, "dRPC"⟩
      (attemptHappy "0xfeedbeef") "0xaa" "Key file not found at .key" 7).1
      rfl rfl rfl rfl,
   (testMode_key_preflight cfgW envKeyFail epsW 0 ⟨cfgW.drpcEndpoint, "dRPC"⟩
      attemptKeyFail "0xaa" "Key file not found at .key" 7).2.1 rfl rfl,
   (testMode_key_preflight cfgW envKeyFail epsW 0 ⟨cfgW.drpcEndpoint, "dRPC"⟩
      (attemptHappy "0xfeedbeef") "0xaa" "Key file not found at .key" 7).2.2
      fun _ _ => ⟨"Key file not found at .key", rfl⟩⟩

/-- C3 as stated fails on the code: in a run whose key never decrypts (all
other primitives fine), the engine does NOT fail immediately with a key
error — the failure is absorbed by the per-endpoint catch, the key load is
retried on both endpoints in all three rounds, and the run ends in the
exhaustion error. -/
theorem keyError_not_fatal_counterexample :
    (sendFireTransactionWith cfgW false envKeyFail epsW).2 =
      .exhausted
        "Failed to send transaction after trying all available RPC endpoints"
    ∧ Event.keyLoadCall 1 "dRPC" ∈
        (sendFireTransactionWith cfgW false envKeyFail epsW).1
    ∧ Event.keyLoadCall 2 "Ronin RPC" ∈
        (sendFireTransactionWith cfgW false envKeyFail epsW).1 := by
  decide

/-- C3 amended: a key-decryption failure is absorbed into the per-endpoint
retry loop like any transport failure — the attempt ends right after the
key-load call and control moves to the next endpoint — and a run whose key
never decrypts is retried across endpoints and rounds and ends in the
exhaustion error (not a distinct key error), in any mode. -/
theorem keyError_absorbed_retries (cfg : Config) (t : Bool)
    (env : OrchestraEnv) (eps : List Endpoint) (r : Nat) (e : Endpoint)
    (a : AttemptEnv) (m : String) :
    (a.connTest = .ok () → a.keyLoad = .error m →
      runAttempt cfg t r e a =
        ([.attemptStart r e.name, .connTestCall r e.name,
          .keyLoadCall r e.name], none))
    ∧ ((∀ r' e', ∃ m', (env.attempt r' e').keyLoad = .error m') →
        (sendFireTransactionWith cfg t env eps).2 =
          .exhausted
            "Failed to send transaction after trying all available RPC endpoints") :=
  ⟨runAttempt_keyError cfg t r e a m, keyFailAll_exhausted cfg t env eps⟩

/-- Witness for the amended C3. -/
theorem keyError_absorbed_retries_witness :
    runAttempt cfgW false 1 ⟨cfgW.drpcEndpoint, "dRPC"⟩ attemptKeyFail =
      ([.attemptStart 1 "dRPC", .connTestCall 1 "dRPC", .keyLoadCall 1 "dRPC"],
       none)
    ∧ (sendFireTransactionWith cfgW false envKeyFail epsW).2 =
        .exhausted
          "Failed to send transaction after trying all available RPC endpoints" :=
  ⟨(keyError_absorbed_retries cfgW false envKeyFail epsW 1
      ⟨cfgW.drpcEndpoint, "dRPC"⟩ attemptKeyFail "Key file not found at .key").1
      rfl rfl,
   (keyError_absorbed_retries cfgW false envKeyFail epsW 1
      ⟨cfgW.drpcEndpoint, "dRPC"⟩ attemptKeyFail "Key file not found at .key").2
      fun _ _ => ⟨"Key file not found at .key", rfl⟩⟩

/-- C10: for every private key string and every configured passphrase,
encrypting and saving the key and then loading and decrypting it returns
exactly the original key, through the on-disk hex encoding of salt, IV,
auth tag and ciphertext.  The scrypt derivation and the AES-256-GCM cipher
are Node library primitives, quantified here with only their inverse
property (decrypting the produced ciphertext under the same derived key,
IV and tag yields the plaintext) and the byte ranges and lengths their
contracts guarantee. -/
theorem key_roundtrip (scrypt : String → List Nat → List Nat)
    (aesEncrypt : List Nat → List Nat → String → List Nat × List Nat)
    (aesDecrypt : List Nat → List Nat → List Nat → List Nat → Option String)
    (passphrase : String) (salt iv : List Nat) (k : String)
    (hsalt : salt.length = SALT_LENGTH) (hiv : iv.length = IV_LENGTH)
    (hsaltb : ∀ b ∈ salt, b < 256) (hivb : ∀ b ∈ iv, b < 256)
    (htag : (aesEncrypt (scrypt passphrase salt) iv k).2.length = TAG_LENGTH)
    (htagb : ∀ b ∈ (aesEncrypt (scrypt passphrase salt) iv k).2, b < 256)
    (hcipb : ∀ b ∈ (aesEncrypt (scrypt passphrase salt) iv k).1, b < 256)
    (hinv : aesDecrypt (scrypt passphrase salt) iv
        (aesEncrypt (scrypt passphrase salt) iv k).2
        (aesEncrypt (scrypt passphrase salt) iv k).1 = some k) :
    loadAndDecryptKey scrypt aesDecrypt passphrase
      (encryptAndSaveKey scrypt aesEncrypt passphrase salt iv k) = some k := by
  simp only [encryptAndSaveKey, loadAndDecryptKey]
  set A := bytesToHex salt with hA
  set B := bytesToHex iv with hB
  set C := bytesToHex (aesEncrypt (scrypt passphrase salt) iv k).2 with hC
  set D := bytesToHex (aesEncrypt (scrypt passphrase salt) iv k).1 with hD
  have l1 : A.length = SALT_LENGTH * 2 := by
    rw [hA, bytesToHex_length, hsalt]; ring
  have l2 : B.length = IV_LENGTH * 2 := by
    rw [hB, bytesToHex_length, hiv]; ring
  have l3 : C.length = TAG_LENGTH * 2 := by
    rw [hC, bytesToHex_length, htag]; ring
  have hsi : (A ++ B).length = (SALT_LENGTH + IV_LENGTH) * 2 := by
    rw [List.length_append, l1, l2]; ring
  have hsit : ((A ++ B) ++ C).length =
      (SALT_LENGTH + IV_LENGTH + TAG_LENGTH) * 2 := by
    rw [List.length_append, hsi, l3]; ring
  have hE1 : ((A ++ B) ++ C) ++ D = A ++ (B ++ (C ++ D)) := by
    simp [List.append_assoc]
  have hE2 : ((A ++ B) ++ C) ++ D = (A ++ B) ++ (C ++ D) := by
    simp [List.append_assoc]
  have e1 : (((A ++ B) ++ C) ++ D).take (SALT_LENGTH * 2) = A := by
    rw [hE1]; exact List.take_left' l1
  have e2 : ((((A ++ B) ++ C) ++ D).drop (SALT_LENGTH * 2)).take
      (IV_LENGTH * 2) = B := by
    rw [hE1, List.drop_left' l1]; exact List.take_left' l2
  have e3 : ((((A ++ B) ++ C) ++ D).drop ((SALT_LENGTH + IV_LENGTH) * 2)).take
      (TAG_LENGTH * 2) = C := by
    rw [hE2, List.drop_left' hsi]; exact List.take_left' l3
  have e4 : (((A ++ B) ++ C) ++ D).drop
      ((SALT_LENGTH + IV_LENGTH + TAG_LENGTH) * 2) = D :=
    List.drop_left' hsit
  rw [e1, e2, e3, e4, hA, hB, hC, hD,
    hexToBytes_bytesToHex salt hsaltb, hexToBytes_bytesToHex iv hivb,
    hexToBytes_bytesToHex _ htagb, hexToBytes_bytesToHex _ hcipb]
  exact hinv

/-- Witness for C10 with a concrete cipher instance satisfying the inverse
property: encrypt-then-decrypt recovers the key "ab". -/
theorem key_roundtrip_witness :
    loadAndDecryptKey (fun _ _ => List.replicate 32 7)
      (fun _ _ _ bs => some (String.mk (bs.map Char.ofNat))) "passphrase"
      (encryptAndSaveKey (fun _ _ => List.replicate 32 7)
        (fun _ _ s => (s.toList.map Char.toNat, List.replicate 16 1))
        "passphrase" (List.replicate 16 0) (List.replicate 16 3) "ab") =
      some "ab" :=
  key_roundtrip (fun _ _ => List.replicate 32 7)
    (fun _ _ s => (s.toList.map Char.toNat, List.replicate 16 1))
    (fun _ _ _ bs => some (String.mk (bs.map Char.ofNat))) "passphrase"
    (List.replicate 16 0) (List.replicate 16 3) "ab"
    (by decide) (by decide) (by decide) (by decide) (by decide) (by decide)
    (by decide) (by decide)
